import Mathlib

/-!
Verification of the QSPIFBlockDevice flash block-device driver
(stevew817/qspif-blockdevice).

The repository's `src/` holds only `QSPIFBlockDevice.h`, the class
declaration: the enum `qspif_bd_error`, the bounds `QSPIF_MAX_REGIONS = 10`
and `MAX_NUM_OF_ERASE_TYPES = 4`, the member layout (erase-type arrays,
region boundary arrays, bus-mode members) and the inline destructor
`~QSPIFBlockDevice() {deinit();}`.  The bodies of the member functions are
not part of `src/`, so every behavioural definition below is modelled from
the specification's description of those functions; each such definition
carries a doc comment saying so.
-/

namespace QSPIFBlockDevice

/-- Bound from src/QSPIFBlockDevice.h: `#define QSPIF_MAX_REGIONS 10`. -/
def QSPIF_MAX_REGIONS : Nat := 10

/-- Bound from src/QSPIFBlockDevice.h: `#define MAX_NUM_OF_ERASE_TYPES 4`. -/
def MAX_NUM_OF_ERASE_TYPES : Nat := 4

/-- Error codes from src/QSPIFBlockDevice.h, enum `qspif_bd_error`. -/
inductive qspif_bd_error where
  | ok
  | device_error
  | parsing_failed
  | ready_failed
  | wren_failed
deriving DecidableEq, Repr

/-- Numeric values of the enum `qspif_bd_error` in src/QSPIFBlockDevice.h. -/
def qspif_bd_error.code : qspif_bd_error → Int
  | .ok => 0
  | .device_error => -4001
  | .parsing_failed => -4002
  | .ready_failed => -4003
  | .wren_failed => -4004

/-- One of the up-to-4 SFDP erase-type descriptors: an opcode byte and a
size in bytes (the source stores these in `_erase_type_inst_arr` and
`_erase_type_size_arr`). -/
structure EraseType where
  opcode : Nat
  size : Nat
deriving DecidableEq, Repr

/-- One entry of the sector-region map (the source stores the region data in
`_region_size_bytes`, `_region_high_boundary` and
`_region_erase_types_bitfield`).  `highBoundary` is the exclusive upper
address bound of the region; `eraseTypeMask` is the 4-bit set of erase types
usable inside the region. -/
structure Region where
  highBoundary : Nat
  eraseTypeMask : Nat
  regionSize : Nat
deriving DecidableEq, Repr

/-- Default region used with `List.getD`; all lookups are guarded by index
bounds in the theorems below. -/
def dfltRegion : Region := { highBoundary := 0, eraseTypeMask := 0, regionSize := 0 }

/-- Geometry Model of the device, populated by a successful `init()`:
device size, page size, the ordered region map and the erase-type table
(unused slots are `none`), plus the legacy default 4 KiB erase size kept for
fallback (`_erase4k_inst` in the source). -/
structure Geometry where
  device_size : Nat
  page_size : Nat
  regions : List Region
  erase_types : List (Option EraseType)
  erase4k_size : Nat
deriving DecidableEq, Repr

/-- The valid (non-empty) erase-type slots together with their slot index. -/
def validEraseTypes (g : Geometry) : List (Nat × EraseType) :=
  (List.range MAX_NUM_OF_ERASE_TYPES).filterMap
    (fun i => (g.erase_types.getD i none).map (fun t => (i, t)))

/-- The erase types whose slot bit is set in a region's 4-bit mask and whose
slot is valid. -/
def supportedEraseTypes (g : Geometry) (mask : Nat) : List EraseType :=
  ((validEraseTypes g).filter (fun p => Nat.testBit mask p.1)).map Prod.snd

/-- Exclusive high boundary of region `i` (0 when out of range). -/
def regionHigh (rs : List Region) (i : Nat) : Nat :=
  (rs.getD i dfltRegion).highBoundary

/-- Low (inclusive) boundary of region `i`: the previous region's high
boundary, or 0 for the first region. -/
def regionLow (rs : List Region) : Nat → Nat
  | 0 => 0
  | i + 1 => regionHigh rs i

/-- One region descriptor of the SFDP Sector Map Parameter Table: a region
size in bytes and the 4-bit erase-type mask (spec section 4.2). -/
structure SectorMapDescriptor where
  regionSize : Nat
  eraseTypeMask : Nat
deriving DecidableEq, Repr

/-- Accumulate sector-map descriptors into the region list with running
boundary offsets (spec section 4.2: "Accumulate into the `regions` sequence
with running boundary offsets"). -/
def buildRegions : List SectorMapDescriptor → Nat → List Region
  | [], _ => []
  | d :: ds, base =>
    { highBoundary := base + d.regionSize,
      eraseTypeMask := d.eraseTypeMask,
      regionSize := d.regionSize } :: buildRegions ds (base + d.regionSize)

/-- Modelled from the spec: the body of
`QSPIFBlockDevice::_sfdp_parse_sector_map_table` is not under src/ (src
holds only the declaration in QSPIFBlockDevice.h).  Spec section 4.2:
"decode a sequence of region descriptors, each giving a region size and an
erase-type bitmask ... Accumulate into the `regions` sequence with running
boundary offsets.  Reject a descriptor sequence whose accumulated size does
not exactly equal the device size."  An empty descriptor sequence and a
zero region size are rejected as malformed (the documented JEDEC layout
encodes a region size as `(n+1)*256` bytes, which cannot be zero, and the
sector map always holds at least one region); a region count above
`QSPIF_MAX_REGIONS` exceeds the source's fixed-size arrays and is likewise
rejected. -/
def sfdp_parse_sector_map_table (descs : List SectorMapDescriptor)
    (device_size : Nat) : Option (List Region) :=
  if descs.isEmpty then none
  else if QSPIF_MAX_REGIONS < descs.length then none
  else if descs.any (fun d => d.regionSize = 0) then none
  else if (descs.map SectorMapDescriptor.regionSize).sum ≠ device_size then none
  else some (buildRegions descs 0)

/-- Linear scan over the region list carrying the next index to report. -/
def findRegionIdxAux : List Region → Nat → Nat → Option Nat
  | [], _, _ => none
  | r :: rs, offset, i =>
    if offset < r.highBoundary then some i else findRegionIdxAux rs offset (i + 1)

/-- Modelled from the spec: the body of
`QSPIFBlockDevice::_utils_find_addr_region` is not under src/.  Spec
section 4.4: given an address, find the first region whose high boundary
exceeds the address; an address at or beyond `device_size` is an
out-of-range error. -/
def _utils_find_addr_region (g : Geometry) (offset : Nat) : Option Nat :=
  if g.device_size ≤ offset then none
  else findRegionIdxAux g.regions offset 0

/-- The fitting condition of spec section 4.3 for one erase type at one
step: its size evenly divides the current offset, does not exceed the
remaining count, and does not cross the region's high boundary. -/
def eraseFits (offset remaining boundary : Nat) (t : EraseType) : Prop :=
  offset % t.size = 0 ∧ t.size ≤ remaining ∧ offset + t.size ≤ boundary

instance (offset remaining boundary : Nat) (t : EraseType) :
    Decidable (eraseFits offset remaining boundary t) :=
  inferInstanceAs
    (Decidable (offset % t.size = 0 ∧ t.size ≤ remaining ∧ offset + t.size ≤ boundary))

/-- Modelled from the spec: the body of
`QSPIFBlockDevice::_utils_iterate_next_largest_erase_type` is not under
src/.  Spec section 4.3: "pick the single largest erase type, among that
region's supported set, whose size evenly divides the alignment of the
current offset and does not exceed the remaining count or cross the
region's high boundary.  If none of the region's erase types satisfies
alignment/remaining-size, fall back to the smallest supported type in that
region (still must evenly divide the offset — an offset misaligned even to
the smallest type is a caller contract violation, reported as a geometry
error, not silently rounded)"; `none` is that geometry error. -/
def _utils_iterate_next_largest_erase_type (g : Geometry)
    (mask offset remaining boundary : Nat) : Option EraseType :=
  match ((supportedEraseTypes g mask).filter
      (fun t => decide (eraseFits offset remaining boundary t))).argmax EraseType.size with
  | some t => some t
  | none =>
    match (supportedEraseTypes g mask).argmin EraseType.size with
    | some t => if offset % t.size = 0 then some t else none
    | none => none

/-- One emitted erase command: opcode, start address, byte count. -/
structure EraseCommand where
  opcode : Nat
  address : Nat
  size : Nat
deriving DecidableEq, Repr

/-- Total byte count covered by a command sequence. -/
def cmdsSize (l : List EraseCommand) : Nat := (l.map EraseCommand.size).sum

/-- Modelled from the spec: the erase iteration policy of spec section 4.3,
whose implementation (the loop inside `QSPIFBlockDevice::erase`) is not
under src/: "repeatedly apply the selection to advance through a
multi-block erase request, always re-evaluating against the current
region".  The fuel argument bounds the number of emitted commands;
`erase_commands` instantiates it with the byte count, which always
suffices because every selected erase type has positive size. -/
def eraseLoopAux (g : Geometry) : Nat → Nat → Nat → Option (List EraseCommand)
  | _, _, 0 => some []
  | 0, _, _ + 1 => none
  | fuel + 1, offset, rem + 1 =>
    match _utils_find_addr_region g offset with
    | none => none
    | some ridx =>
      let r := g.regions.getD ridx dfltRegion
      match _utils_iterate_next_largest_erase_type g r.eraseTypeMask offset
          (rem + 1) r.highBoundary with
      | none => none
      | some t =>
        if t.size = 0 then none
        else
          match eraseLoopAux g fuel (offset + t.size) (rem + 1 - t.size) with
          | none => none
          | some cmds =>
            some ({ opcode := t.opcode, address := offset, size := t.size } :: cmds)

/-- The sequence of (opcode, address, size) erase commands that
`erase(addr, size)` issues in ascending address order, or `none` on a
geometry error. -/
def erase_commands (g : Geometry) (addr size : Nat) : Option (List EraseCommand) :=
  eraseLoopAux g size addr size

/-- Modelled from the spec: the computation of the member
`_min_common_erase_size` is not under src/.  Spec section 3: "the largest
erase size supported by every region, or 0 if no erase type is common to
all regions". -/
def _min_common_erase_size (g : Geometry) : Nat :=
  let commonMask := g.regions.foldl (fun m r => m &&& r.eraseTypeMask) 15
  match (supportedEraseTypes g commonMask).argmax EraseType.size with
  | some t => t.size
  | none => 0

/-- Modelled from the spec: the body of the address-taking overload
`get_erase_size(bd_addr_t)` is not under src/.  The header documents it as
the size of the minimal erase sector in the given address's region; spec
section 8: one of that region's supported erase types, or the legacy
default if none larger is common. -/
def get_erase_size_at (g : Geometry) (addr : Nat) : Option Nat :=
  match _utils_find_addr_region g addr with
  | none => none
  | some ridx =>
    match (supportedEraseTypes g
        (g.regions.getD ridx dfltRegion).eraseTypeMask).argmin EraseType.size with
    | some t => some t.size
    | none => some g.erase4k_size

/-- The six bus read modes of spec section 4.2, in the fixed preference
order QPI(4-4-4) > Quad(1-4-4) > Quad(1-1-4) > Dual(1-2-2) > Dual(1-1-2) >
Single(1-1-1). -/
inductive BusReadMode where
  | qpi444
  | quad144
  | quad114
  | dual122
  | dual112
  | single111
deriving DecidableEq, Repr, Fintype

/-- Capability bits decoded from the Basic Flash Parameter Table (spec
section 4.2); Single(1-1-1) needs no capability bit. -/
structure BusCaps where
  sup_444 : Bool
  sup_144 : Bool
  sup_114 : Bool
  sup_122 : Bool
  sup_112 : Bool
deriving DecidableEq, Repr, Fintype

/-- Preference rank of a bus read mode: lower is preferred. -/
def modeRank : BusReadMode → Nat
  | .qpi444 => 0
  | .quad144 => 1
  | .quad114 => 2
  | .dual122 => 3
  | .dual112 => 4
  | .single111 => 5

/-- Whether a capability pattern supports a mode (Single(1-1-1) always is). -/
def modeSupported (c : BusCaps) : BusReadMode → Bool
  | .qpi444 => c.sup_444
  | .quad144 => c.sup_144
  | .quad114 => c.sup_114
  | .dual122 => c.sup_122
  | .dual112 => c.sup_112
  | .single111 => true

/-- Modes that require the quad-enable step before use (spec section 4.2:
"If quad/QPI is chosen, a quad-enable step must run during
initialization"). -/
def needsQuadEnable : BusReadMode → Bool
  | .qpi444 => true
  | .quad144 => true
  | .quad114 => true
  | .dual122 => false
  | .dual112 => false
  | .single111 => false

/-- Modelled from the spec: the body of
`QSPIFBlockDevice::_sfdp_detect_best_bus_read_mode` is not under src/.
Spec section 4.2: "evaluate capability bits in strict preference order
QPI(4-4-4) > Quad(1-4-4) > Quad(1-1-4) > Dual(1-2-2) > Dual(1-1-2) >
Single(1-1-1); pick the first supported mode", together with the flag the
declaration exposes as `set_quad_enable`. -/
def _sfdp_detect_best_bus_read_mode (c : BusCaps) : BusReadMode × Bool :=
  if c.sup_444 then (.qpi444, true)
  else if c.sup_144 then (.quad144, true)
  else if c.sup_114 then (.quad114, true)
  else if c.sup_122 then (.dual122, false)
  else if c.sup_112 then (.dual112, false)
  else (.single111, false)

/-- The fields of the fixed-size SFDP header read at address 0 of the
parameter-ID space (spec section 4.1); `magic` is the list of signature
bytes, `headerCount` the parameter-header directory length. -/
structure SfdpHeaderInfo where
  magic : List Nat
  versionMajor : Nat
  versionMinor : Nat
  headerCount : Nat
deriving DecidableEq, Repr

/-- The data decoded from the Basic Flash Parameter Table (spec section
4.2): device size, page size, the up-to-4 erase-type descriptors, the
legacy 4 KiB erase, the bus capability bits and whether the quad-enable
mechanism code is a known one. -/
structure BasicTable where
  device_size : Nat
  page_size : Nat
  erase_types : List (Option EraseType)
  erase4k_size : Nat
  caps : BusCaps
  quadEnableMechanismKnown : Bool
deriving DecidableEq, Repr

/-- The self-description data an attached flash device presents to the
SFDP discovery pass: the header, the mandatory Basic Table (absent =
missing) and the optional Sector Map Table. -/
structure SfdpDevice where
  header : SfdpHeaderInfo
  basicTable : Option BasicTable
  sectorMapDescs : Option (List SectorMapDescriptor)
deriving DecidableEq, Repr

/-- The JEDEC SFDP magic signature bytes. -/
def SFDP_SIGNATURE : List Nat := [0x53, 0x46, 0x44, 0x50]

/-- Modelled from the spec: the body of
`QSPIFBlockDevice::_sfdp_parse_sfdp_headers` is not under src/.  Spec
section 4.1 steps 1-2: verify the magic signature and a minimum supported
SFDP major version, and treat a directory entry count of 0 as a parsing
failure. -/
def _sfdp_parse_sfdp_headers (h : SfdpHeaderInfo) : Except qspif_bd_error Unit :=
  if h.magic ≠ SFDP_SIGNATURE then .error .parsing_failed
  else if h.versionMajor < 1 then .error .parsing_failed
  else if h.headerCount = 0 then .error .parsing_failed
  else .ok ()

/-- The mask of all erase types the Basic Table declared as supported,
used by the single-region fallback of spec section 4.2. -/
def allEraseTypesMask (bt : BasicTable) : Nat :=
  (List.range MAX_NUM_OF_ERASE_TYPES).foldl
    (fun m i => if (bt.erase_types.getD i none).isSome then m ||| (1 <<< i) else m) 0

/-- Modelled from the spec: geometry construction inside `init()` (not
under src/).  Sector map present: decode it per spec section 4.2; absent:
"synthesize a single region spanning the whole device whose erase-type
mask is all erase types the Basic Table declared as supported". -/
def buildGeometry (bt : BasicTable) (smt : Option (List SectorMapDescriptor)) :
    Except qspif_bd_error Geometry :=
  match smt with
  | none =>
    if bt.device_size = 0 then .error .parsing_failed
    else .ok
      { device_size := bt.device_size
        page_size := bt.page_size
        regions := [{ highBoundary := bt.device_size,
                      eraseTypeMask := allEraseTypesMask bt,
                      regionSize := bt.device_size }]
        erase_types := bt.erase_types
        erase4k_size := bt.erase4k_size }
  | some descs =>
    match sfdp_parse_sector_map_table descs bt.device_size with
    | none => .error .parsing_failed
    | some rs => .ok
      { device_size := bt.device_size
        page_size := bt.page_size
        regions := rs
        erase_types := bt.erase_types
        erase4k_size := bt.erase4k_size }

/-- One observable transaction or configuration change on the QSPI bus
(the collaborator interface of spec section 6). -/
inductive BusAction where
  | set_frequency
  | configure_format (m : BusReadMode)
  | write_enable
  | read_status
  | program_transfer (addr bytes : Nat)
  | erase_cmd (opcode addr : Nat)
  | read_transfer (addr bytes : Nat)
  | quad_enable
deriving DecidableEq, Repr

/-- Modelled from the spec: the body of `QSPIFBlockDevice::init` is not
under src/.  Spec section 6: "performs SFDP discovery, builds the Geometry
Model, configures best bus mode, enables quad/QPI if applicable"; any
parsing failure aborts initialization before the bus format or frequency
is changed.  Returns the error code, the geometry built (`none` on
failure) and the bus actions applied. -/
def init (dev : SfdpDevice) : qspif_bd_error × Option Geometry × List BusAction :=
  match _sfdp_parse_sfdp_headers dev.header with
  | .error e => (e, none, [])
  | .ok _ =>
    match dev.basicTable with
    | none => (.parsing_failed, none, [])
    | some bt =>
      match buildGeometry bt dev.sectorMapDescs with
      | .error e => (e, none, [])
      | .ok g =>
        if (_sfdp_detect_best_bus_read_mode bt.caps).2 &&
            !bt.quadEnableMechanismKnown then (.parsing_failed, none, [])
        else (.ok, some g,
          (if (_sfdp_detect_best_bus_read_mode bt.caps).2 then
            [BusAction.quad_enable]
          else []) ++
            [BusAction.set_frequency,
             BusAction.configure_format (_sfdp_detect_best_bus_read_mode bt.caps).1])

/-- Run-time state of the driver object: the `_is_initialized` member from
src/QSPIFBlockDevice.h and the Geometry Model. -/
structure DeviceState where
  is_initialized : Bool
  geometry : Geometry
deriving Repr

/-- Modelled from the spec: operation outcome taxonomy of spec section 7
(`DeviceError`, `ParsingFailed`, `ReadyFailed`, `WriteEnableFailed`) plus
the dedicated not-ready condition for operations attempted before a
successful `init()` and the geometry error of section 4.3. -/
inductive OpResult where
  | ok
  | device_error
  | parsing_failed
  | ready_failed
  | wren_failed
  | not_ready
  | geometry_error
deriving DecidableEq, Repr

/-- Bounded retry budget of the write-enable-latch poll (spec section 4.5:
"bounded retries"). -/
def WREN_RETRY_BUDGET : Nat := 5

/-- Modelled from the spec: the body of
`QSPIFBlockDevice::_set_write_enable` is not under src/.  Spec section
4.5: issue the write-enable opcode, then poll the status register for the
write-enable-latch bit with bounded retries.  `wel` is the stream of WEL
bits successive status reads observe; returns success and the bus actions
performed. -/
def _set_write_enable (wel : List Bool) : Bool × List BusAction :=
  ((wel.take WREN_RETRY_BUDGET).any (fun b => b),
    BusAction.write_enable ::
      (wel.take WREN_RETRY_BUDGET).map (fun _ => BusAction.read_status))

/-- Bounded budget of the not-busy poll (spec section 4.5). -/
def MEM_READY_BUDGET : Nat := 5

/-- Modelled from the spec: the body of `QSPIFBlockDevice::_is_mem_ready`
is not under src/.  Spec section 4.5: poll the status register's busy bit
in a bounded loop; `busy` is the stream of busy bits observed. -/
def _is_mem_ready (busy : List Bool) : Bool :=
  (busy.take MEM_READY_BUDGET).any (fun b => !b)

/-- Modelled from the spec: the body of `QSPIFBlockDevice::read` is not
under src/.  Spec section 7: an operation attempted before a successful
`init()` fails fast with the not-ready condition rather than touching the
bus; otherwise the read transfer is issued (spec section 4.5). -/
def read (st : DeviceState) (addr bytes : Nat) : OpResult × List BusAction :=
  if !st.is_initialized then (.not_ready, [])
  else (.ok, [BusAction.read_transfer addr bytes])

/-- Modelled from the spec: the body of `QSPIFBlockDevice::program` is not
under src/.  Spec section 4.5: set-write-enable (bounded poll, failure →
write-enable error, the program transfer is not attempted) → program
transfer → not-busy poll; section 7: not-ready before a successful
`init()`. -/
def program (st : DeviceState) (wel busy : List Bool) (addr bytes : Nat) :
    OpResult × List BusAction :=
  if !st.is_initialized then (.not_ready, [])
  else
    let we := _set_write_enable wel
    if !we.1 then (.wren_failed, we.2)
    else if !_is_mem_ready busy then
      (.ready_failed, we.2 ++ [BusAction.program_transfer addr bytes])
    else (.ok, we.2 ++ [BusAction.program_transfer addr bytes, BusAction.read_status])

/-- Modelled from the spec: the body of `QSPIFBlockDevice::erase` is not
under src/.  Spec sections 4.3 and 4.5: build the command sequence from
the Erase-Type Selector (geometry error when the selector reports the
caller contract violation), then for each command: write-enable, erase
instruction, not-busy poll; section 7: not-ready before a successful
`init()`. -/
def erase (st : DeviceState) (addr bytes : Nat) : OpResult × List BusAction :=
  if !st.is_initialized then (.not_ready, [])
  else
    match erase_commands st.geometry addr bytes with
    | none => (.geometry_error, [])
    | some cmds =>
      (.ok, (cmds.map (fun c =>
        [BusAction.write_enable, BusAction.erase_cmd c.opcode c.address,
         BusAction.read_status])).flatten)

/-- Modelled from the spec: `get_read_size` (not under src/) reports the
1-byte logical read granularity; all geometry accessors require a
successfully-initialized model (spec section 6). -/
def get_read_size (st : DeviceState) : Option Nat :=
  if st.is_initialized then some 1 else none

/-- Modelled from the spec: `get_program_size` (not under src/) reports
the page size; not-ready before a successful `init()`. -/
def get_program_size (st : DeviceState) : Option Nat :=
  if st.is_initialized then some st.geometry.page_size else none

/-- Modelled from the spec: the no-argument `get_erase_size` (not under
src/) reports the minimal erase size common to all regions; not-ready
before a successful `init()`. -/
def get_erase_size (st : DeviceState) : Option Nat :=
  if st.is_initialized then some (_min_common_erase_size st.geometry) else none

/-- Modelled from the spec: the address-taking `get_erase_size` overload
(not under src/); not-ready before a successful `init()`. -/
def get_erase_size_addr (st : DeviceState) (addr : Nat) : Option Nat :=
  if st.is_initialized then get_erase_size_at st.geometry addr else none

/-- Modelled from the spec: `size()` (not under src/) reports the device
size; not-ready before a successful `init()`. -/
def size (st : DeviceState) : Option Nat :=
  if st.is_initialized then some st.geometry.device_size else none

/-- Modelled from the spec: the body of `QSPIFBlockDevice::deinit` is not
under src/.  Spec section 6: "releases bus configuration; Geometry Model
becomes not-ready". -/
def deinit (st : DeviceState) : DeviceState :=
  { st with is_initialized := false }

/-- The destructor, whose body IS in src/QSPIFBlockDevice.h line 89:
`~QSPIFBlockDevice() {deinit();}` — it invokes `deinit()`
unconditionally. -/
def destruct (st : DeviceState) : DeviceState := deinit st

/-- Well-formedness invariants of a populated Geometry Model: the
invariants of spec section 3 (boundaries monotonic and exhaustive, region
sizes consistent with boundaries) together with the facts the JEDEC tables
guarantee about erase types: sizes are positive, distinct across slots,
totally ordered by divisibility (spec section 3 makes each size a power of
two, so a smaller size always divides a larger one), and each erase
granularity divides the regions it applies to.  Bounded quantifiers range
over `List.range` so the predicate is decidable on concrete geometries. -/
structure GeometryWF (g : Geometry) : Prop where
  regions_nonempty : g.regions ≠ []
  boundaries_chain :
    List.Chain' (fun a b => a < b) (0 :: g.regions.map Region.highBoundary)
  last_boundary : regionHigh g.regions (g.regions.length - 1) = g.device_size
  sizes_pos : ∀ t ∈ supportedEraseTypes g 15, 0 < t.size
  sizes_dvd_ordered : ∀ t ∈ supportedEraseTypes g 15,
    ∀ u ∈ supportedEraseTypes g 15, u.size ≤ t.size → u.size ∣ t.size
  sizes_distinct :
    List.Pairwise (fun a b => EraseType.size a ≠ EraseType.size b)
      (supportedEraseTypes g 15)
  region_size_eq : ∀ i ∈ List.range g.regions.length,
    regionLow g.regions i + (g.regions.getD i dfltRegion).regionSize =
      regionHigh g.regions i
  erase_divides : ∀ i ∈ List.range g.regions.length,
    ∀ t ∈ supportedEraseTypes g (g.regions.getD i dfltRegion).eraseTypeMask,
      t.size ∣ (g.regions.getD i dfltRegion).regionSize ∧
        t.size ∣ regionLow g.regions i
  erase4k_pos : 0 < g.erase4k_size
  erase4k_divides : ∀ i ∈ List.range g.regions.length,
    g.erase4k_size ∣ (g.regions.getD i dfltRegion).regionSize

/-- The two-region 16 MiB scenario device of spec section 8:
`[0, 8 MiB)` supports erase types {4K, 64K} (mask 0b101), `[8 MiB, 16 MiB)`
supports {4K, 32K, 64K} (mask 0b111). -/
def g16 : Geometry :=
  { device_size := 16777216
    page_size := 256
    regions :=
      [ { highBoundary := 8388608, eraseTypeMask := 5, regionSize := 8388608 },
        { highBoundary := 16777216, eraseTypeMask := 7, regionSize := 8388608 } ]
    erase_types :=
      [ some { opcode := 0x20, size := 4096 },
        some { opcode := 0x52, size := 32768 },
        some { opcode := 0xD8, size := 65536 },
        none ]
    erase4k_size := 4096 }

/-- A concrete self-description for witnesses: valid SFDP header, a Basic
Table declaring a 16 MiB device with the 4 KiB erase type and Quad(1-4-4)
plus Quad(1-1-4) capability, a known quad-enable mechanism, and no sector
map. -/
def devQuad : SfdpDevice :=
  { header := { magic := [0x53, 0x46, 0x44, 0x50],
                versionMajor := 1,
                versionMinor := 6,
                headerCount := 2 },
    basicTable := some
      { device_size := 16777216,
        page_size := 256,
        erase_types := [some { opcode := 0x20, size := 4096 }, none, none, none],
        erase4k_size := 4096,
        caps := { sup_444 := false, sup_144 := true, sup_114 := true,
                  sup_122 := false, sup_112 := false },
        quadEnableMechanismKnown := true },
    sectorMapDescs := none }

/-- `devQuad` with a corrupted SFDP signature, for the bad-magic witness. -/
def devBadMagic : SfdpDevice :=
  { devQuad with
    header := { magic := [0xFF, 0x46, 0x44, 0x50],
                versionMajor := 1,
                versionMinor := 6,
                headerCount := 2 } }

end QSPIFBlockDevice

open QSPIFBlockDevice

namespace SectorMapLemmas

theorem buildRegions_length (ds : List SectorMapDescriptor) (base : Nat) :
    (buildRegions ds base).length = ds.length := by
  induction ds generalizing base with
  | nil => rfl
  | cons d ds ih => simp [buildRegions, ih]

theorem buildRegions_chain (ds : List SectorMapDescriptor) (base : Nat)
    (hpos : ∀ d ∈ ds, 0 < d.regionSize) :
    List.Chain' (fun a b => a < b)
      (base :: (buildRegions ds base).map Region.highBoundary) := by
  induction ds generalizing base with
  | nil => simp [buildRegions]
  | cons d ds ih =>
    have hd : 0 < d.regionSize := hpos d (by simp)
    have htail := ih (base + d.regionSize) (fun x hx => hpos x (by simp [hx]))
    have hlt : base < base + d.regionSize := Nat.lt_add_of_pos_right hd
    simpa [buildRegions, List.chain'_cons] using And.intro hlt htail

theorem regionHigh_cons_succ (r : Region) (rs : List Region) (i : Nat) :
    regionHigh (r :: rs) (i + 1) = regionHigh rs i := rfl

theorem regionHigh_eq_map_getD (rs : List Region) (i : Nat) :
    regionHigh rs i = (rs.map Region.highBoundary).getD i 0 := by
  induction rs generalizing i with
  | nil => cases i <;> simp [regionHigh, dfltRegion]
  | cons r rs ih =>
    cases i with
    | zero => simp [regionHigh]
    | succ j => simpa [regionHigh_cons_succ] using ih j

theorem buildRegions_last (ds : List SectorMapDescriptor) (base : Nat)
    (hne : ds ≠ []) :
    regionHigh (buildRegions ds base) (ds.length - 1) =
      base + (ds.map SectorMapDescriptor.regionSize).sum := by
  induction ds generalizing base with
  | nil => exact absurd rfl hne
  | cons d ds ih =>
    cases ds with
    | nil => simp [buildRegions, regionHigh]
    | cons d2 ds2 =>
      have := ih (base + d.regionSize) (by simp)
      simpa [buildRegions, regionHigh_cons_succ, List.map_cons, List.sum_cons,
        Nat.add_assoc] using this

theorem buildRegions_cover (ds : List SectorMapDescriptor) (base a : Nat)
    (hlo : base ≤ a)
    (hhi : a < base + (ds.map SectorMapDescriptor.regionSize).sum) :
    ∃ i, i < ds.length ∧
      (if i = 0 then base else regionHigh (buildRegions ds base) (i - 1)) ≤ a ∧
      a < regionHigh (buildRegions ds base) i := by
  induction ds generalizing base with
  | nil =>
    exfalso
    simp only [List.map_nil, List.sum_nil, Nat.add_zero] at hhi
    exact absurd hhi (Nat.not_lt_of_le hlo)
  | cons d ds ih =>
    by_cases hcase : a < base + d.regionSize
    · refine ⟨0, by simp, by simpa using hlo, ?_⟩
      simpa [buildRegions, regionHigh] using hcase
    · have hlo2 : base + d.regionSize ≤ a := Nat.le_of_not_lt hcase
      have hhi2 : a < (base + d.regionSize) + (ds.map SectorMapDescriptor.regionSize).sum := by
        simp only [List.map_cons, List.sum_cons] at hhi
        omega
      obtain ⟨i, hilen, hlow, hhigh⟩ := ih (base + d.regionSize) hlo2 hhi2
      refine ⟨i + 1, by simpa using Nat.succ_lt_succ hilen, ?_, ?_⟩
      · cases i with
        | zero =>
          simpa [buildRegions, regionHigh] using hlo2
        | succ j =>
          have : regionHigh (buildRegions (d :: ds) base) (j + 1) =
              regionHigh (buildRegions ds (base + d.regionSize)) j := by
            simp [buildRegions, regionHigh_cons_succ]
          simp only [Nat.add_eq, Nat.succ_ne_zero, if_false] at hlow ⊢
          simpa [this] using hlow
      · have : regionHigh (buildRegions (d :: ds) base) (i + 1) =
            regionHigh (buildRegions ds (base + d.regionSize)) i := by
          simp [buildRegions, regionHigh_cons_succ]
        simpa [this] using hhigh

theorem regionHigh_lt_of_chain (rs : List Region)
    (hc : List.Chain' (fun a b => a < b) (rs.map Region.highBoundary)) :
    ∀ i j, i < j → j < rs.length → regionHigh rs i < regionHigh rs j := by
  intro i j hij hj
  have hp := (List.chain'_iff_pairwise).mp hc
  have hlen : (rs.map Region.highBoundary).length = rs.length := by simp
  have hj' : j < (rs.map Region.highBoundary).length := by omega
  have hi' : i < (rs.map Region.highBoundary).length := by omega
  have := (List.pairwise_iff_getElem).mp hp i j hi' hj' hij
  rw [regionHigh_eq_map_getD, regionHigh_eq_map_getD,
    List.getD_eq_getElem _ _ hi', List.getD_eq_getElem _ _ hj']
  exact this

theorem regionHigh_le_of_chain (rs : List Region)
    (hc : List.Chain' (fun a b => a < b) (rs.map Region.highBoundary)) :
    ∀ i j, i ≤ j → j < rs.length → regionHigh rs i ≤ regionHigh rs j := by
  intro i j hij hj
  rcases Nat.eq_or_lt_of_le hij with h | h
  · exact h ▸ Nat.le_refl _
  · exact Nat.le_of_lt (regionHigh_lt_of_chain rs hc i j h hj)

theorem no_overlap (rs : List Region)
    (hc : List.Chain' (fun a b => a < b) (rs.map Region.highBoundary)) :
    ∀ i j a, i < j → j < rs.length → a < regionHigh rs i → regionLow rs j ≤ a →
      False := by
  intro i j a hij hj hhi hlo
  cases j with
  | zero => omega
  | succ k =>
    have hik : i ≤ k := Nat.lt_succ_iff.mp hij
    have hk : k < rs.length := Nat.lt_of_succ_lt hj
    have hmono := regionHigh_le_of_chain rs hc i k hik hk
    have : regionLow rs (k + 1) = regionHigh rs k := rfl
    omega

end SectorMapLemmas

/-- C1: for every valid SFDP sector-map descriptor stream (one the parser
accepts), the reconstructed regions partition `[0, device_size)` exactly:
the high boundaries are strictly increasing, the last boundary equals the
device size, and every address below the device size lies in exactly one
region — no gaps, no overlaps. -/
theorem c1_sector_map_partition (descs : List SectorMapDescriptor) (D : Nat)
    (rs : List Region)
    (h : sfdp_parse_sector_map_table descs D = some rs) :
    List.Chain' (fun a b => a < b) (rs.map Region.highBoundary) ∧
    0 < rs.length ∧
    regionHigh rs (rs.length - 1) = D ∧
    ∀ a, a < D →
      ∃! i : Nat, i < rs.length ∧ regionLow rs i ≤ a ∧ a < regionHigh rs i := by
  unfold sfdp_parse_sector_map_table at h
  split_ifs at h with h1 h2 h3 h4
  have hrs : rs = buildRegions descs 0 := (Option.some.inj h).symm
  have hne : descs ≠ [] := by
    intro hcon
    exact h1 (by simp [hcon])
  have hpos : ∀ d ∈ descs, 0 < d.regionSize := by
    intro d hd
    simp only [List.any_eq_true, decide_eq_true_eq] at h3
    push_neg at h3
    have := h3 d hd
    omega
  have hsum : (descs.map SectorMapDescriptor.regionSize).sum = D := by
    by_contra hcon
    exact h4 hcon
  subst hrs
  have hlen : (buildRegions descs 0).length = descs.length :=
    SectorMapLemmas.buildRegions_length descs 0
  have hchain0 := SectorMapLemmas.buildRegions_chain descs 0 hpos
  have hchain :
      List.Chain' (fun a b => a < b)
        ((buildRegions descs 0).map Region.highBoundary) := hchain0.tail
  refine ⟨hchain, ?_, ?_, ?_⟩
  · rw [hlen]
    exact List.length_pos.mpr hne
  · rw [hlen]
    have := SectorMapLemmas.buildRegions_last descs 0 hne
    simpa [hsum] using this
  · intro a ha
    obtain ⟨i, hilen, hlow', hhigh⟩ :=
      SectorMapLemmas.buildRegions_cover descs 0 a (Nat.zero_le a)
        (by simpa [hsum] using ha)
    have hlow : regionLow (buildRegions descs 0) i ≤ a := by
      cases i with
      | zero => exact Nat.zero_le a
      | succ j => simpa [regionLow] using hlow'
    refine ⟨i, ⟨by omega, hlow, hhigh⟩, ?_⟩
    intro j hj
    obtain ⟨hjlen, hjlow, hjhigh⟩ := hj
    rcases Nat.lt_trichotomy j i with hlt | heq | hgt
    · exact absurd (SectorMapLemmas.no_overlap _ hchain j i a hlt (by omega)
        hjhigh hlow) (fun f => f)
    · exact heq
    · exact absurd (SectorMapLemmas.no_overlap _ hchain i j a hgt hjlen
        hhigh hjlow) (fun f => f)

/-- Witness for C1 at a concrete two-descriptor stream: a 256-byte region
with mask 1 followed by a 512-byte region with mask 3 on a 768-byte
device; address 300 lies in exactly one region. -/
theorem c1_sector_map_partition_witness :
    sfdp_parse_sector_map_table
        [{ regionSize := 256, eraseTypeMask := 1 },
         { regionSize := 512, eraseTypeMask := 3 }] 768 =
      some [{ highBoundary := 256, eraseTypeMask := 1, regionSize := 256 },
            { highBoundary := 768, eraseTypeMask := 3, regionSize := 512 }] ∧
    regionHigh [{ highBoundary := 256, eraseTypeMask := 1, regionSize := 256 },
                { highBoundary := 768, eraseTypeMask := 3, regionSize := 512 }] 1
      = 768 ∧
    ∃! i : Nat, i < 2 ∧
      regionLow [{ highBoundary := 256, eraseTypeMask := 1, regionSize := 256 },
                 { highBoundary := 768, eraseTypeMask := 3, regionSize := 512 }] i
        ≤ 300 ∧
      300 < regionHigh
        [{ highBoundary := 256, eraseTypeMask := 1, regionSize := 256 },
         { highBoundary := 768, eraseTypeMask := 3, regionSize := 512 }] i :=
  by
  have h := c1_sector_map_partition
    [{ regionSize := 256, eraseTypeMask := 1 },
     { regionSize := 512, eraseTypeMask := 3 }] 768
    [{ highBoundary := 256, eraseTypeMask := 1, regionSize := 256 },
     { highBoundary := 768, eraseTypeMask := 3, regionSize := 512 }] (by decide)
  exact ⟨by decide, h.2.2.1, h.2.2.2 300 (by decide)⟩

namespace SelectorLemmas

theorem mem_fits_filter {g : Geometry} {mask offset rem bnd : Nat} {t : EraseType} :
    t ∈ (supportedEraseTypes g mask).filter
        (fun t => decide (eraseFits offset rem bnd t)) ↔
      t ∈ supportedEraseTypes g mask ∧ eraseFits offset rem bnd t := by
  rw [List.mem_filter]
  constructor
  · exact fun h => ⟨h.1, of_decide_eq_true h.2⟩
  · exact fun h => ⟨h.1, decide_eq_true h.2⟩

theorem selector_of_fits (g : Geometry) (mask offset rem bnd : Nat) (t : EraseType)
    (ht : t ∈ supportedEraseTypes g mask) (htf : eraseFits offset rem bnd t) :
    ∃ u, _utils_iterate_next_largest_erase_type g mask offset rem bnd = some u ∧
      u ∈ supportedEraseTypes g mask ∧ eraseFits offset rem bnd u ∧
      ∀ v ∈ supportedEraseTypes g mask, eraseFits offset rem bnd v →
        v.size ≤ u.size := by
  have htmem : t ∈ (supportedEraseTypes g mask).filter
      (fun t => decide (eraseFits offset rem bnd t)) :=
    mem_fits_filter.mpr ⟨ht, htf⟩
  cases hm : ((supportedEraseTypes g mask).filter
      (fun t => decide (eraseFits offset rem bnd t))).argmax EraseType.size with
  | none =>
    rw [List.argmax_eq_none] at hm
    rw [hm] at htmem
    exact absurd htmem (List.not_mem_nil t)
  | some u =>
    have humem : u ∈ (supportedEraseTypes g mask).filter
        (fun t => decide (eraseFits offset rem bnd t)) :=
      List.argmax_mem (Option.mem_def.mpr hm)
    have hu := mem_fits_filter.mp humem
    refine ⟨u, ?_, hu.1, hu.2, ?_⟩
    · unfold _utils_iterate_next_largest_erase_type
      rw [hm]
    · intro v hv hvf
      exact List.le_of_mem_argmax (mem_fits_filter.mpr ⟨hv, hvf⟩)
        (Option.mem_def.mpr hm)

end SelectorLemmas

/-- C2: the Erase-Type Selector contract of spec section 4.3 — whenever
some erase type of the region's supported set fits (divides the offset,
does not exceed the remaining count, does not cross the region's high
boundary), the selector picks a fitting supported type of maximal size —
and the spec section 8 scenario: on the 16 MiB two-region device,
`_min_common_erase_size` equals 64 KiB and an erase of `[0, 128K)` emits
exactly two 64 KiB erase commands. -/
theorem c2_erase_type_selector_spec :
    (∀ (g : Geometry) (mask offset rem bnd : Nat) (t : EraseType),
      t ∈ supportedEraseTypes g mask → eraseFits offset rem bnd t →
        ∃ u, _utils_iterate_next_largest_erase_type g mask offset rem bnd = some u ∧
          u ∈ supportedEraseTypes g mask ∧ eraseFits offset rem bnd u ∧
          ∀ v ∈ supportedEraseTypes g mask, eraseFits offset rem bnd v →
            v.size ≤ u.size) ∧
    _min_common_erase_size g16 = 65536 ∧
    erase_commands g16 0 131072 =
      some [{ opcode := 0xD8, address := 0, size := 65536 },
            { opcode := 0xD8, address := 65536, size := 65536 }] := by
  refine ⟨SelectorLemmas.selector_of_fits, by decide, by decide⟩

/-- Witness for C2 at a concrete input: on the 16 MiB device's first
region (mask 0b101, boundary 8 MiB), with offset 0 and 128 KiB remaining,
the 4 KiB type fits, so the selector returns a fitting type of maximal
size. -/
theorem c2_erase_type_selector_spec_witness :
    (∃ u, _utils_iterate_next_largest_erase_type g16 5 0 131072 8388608 = some u ∧
      u ∈ supportedEraseTypes g16 5 ∧ eraseFits 0 131072 8388608 u ∧
      ∀ v ∈ supportedEraseTypes g16 5, eraseFits 0 131072 8388608 v →
        v.size ≤ u.size) ∧
    _min_common_erase_size g16 = 65536 := by
  have h := c2_erase_type_selector_spec
  exact ⟨h.1 g16 5 0 131072 8388608 { opcode := 0x20, size := 4096 }
    (by decide) (by decide), h.2.1⟩

namespace RegionLookupLemmas

theorem findRegionIdxAux_spec :
    ∀ (rs : List Region) (offset j : Nat), rs ≠ [] →
      offset < regionHigh rs (rs.length - 1) →
      ∃ k, findRegionIdxAux rs offset j = some (j + k) ∧ k < rs.length ∧
        offset < regionHigh rs k ∧ ∀ m, m < k → regionHigh rs m ≤ offset := by
  intro rs
  induction rs with
  | nil => intro offset j hne _; exact absurd rfl hne
  | cons r rs ih =>
    intro offset j _ hlast
    by_cases hr : offset < r.highBoundary
    · refine ⟨0, ?_, Nat.succ_pos _, hr, fun m hm => absurd hm (Nat.not_lt_zero m)⟩
      simp [findRegionIdxAux, hr]
    · cases rs with
      | nil =>
        exfalso
        exact hr (by simpa [regionHigh] using hlast)
      | cons r2 rs2 =>
        have hlast2 : offset < regionHigh (r2 :: rs2) ((r2 :: rs2).length - 1) := by
          have hshift : regionHigh (r :: r2 :: rs2) ((r :: r2 :: rs2).length - 1) =
              regionHigh (r2 :: rs2) ((r2 :: rs2).length - 1) := by
            simp [SectorMapLemmas.regionHigh_cons_succ, List.length_cons]
          rwa [hshift] at hlast
        obtain ⟨k, hfind, hklen, hkhigh, hkmin⟩ :=
          ih offset (j + 1) (by simp) hlast2
        refine ⟨k + 1, ?_, by simpa using Nat.succ_lt_succ hklen, ?_, ?_⟩
        · rw [show j + (k + 1) = (j + 1) + k by omega]
          simpa [findRegionIdxAux, hr] using hfind
        · simpa [SectorMapLemmas.regionHigh_cons_succ] using hkhigh
        · intro m hm
          cases m with
          | zero => simpa [regionHigh] using Nat.le_of_not_lt hr
          | succ m2 =>
            have := hkmin m2 (by omega)
            simpa [SectorMapLemmas.regionHigh_cons_succ] using this

theorem find_addr_region_spec (g : Geometry) (hwf : GeometryWF g) (a : Nat)
    (ha : a < g.device_size) :
    ∃ i, _utils_find_addr_region g a = some i ∧ i < g.regions.length ∧
      regionLow g.regions i ≤ a ∧ a < regionHigh g.regions i := by
  have hlast : a < regionHigh g.regions (g.regions.length - 1) := by
    rw [hwf.last_boundary]; exact ha
  obtain ⟨k, hfind, hklen, hkhigh, hkmin⟩ :=
    findRegionIdxAux_spec g.regions a 0 hwf.regions_nonempty hlast
  refine ⟨k, ?_, hklen, ?_, hkhigh⟩
  · unfold _utils_find_addr_region
    rw [if_neg (by omega)]
    simpa using hfind
  · cases k with
    | zero => exact Nat.zero_le a
    | succ m => exact hkmin m (Nat.lt_succ_self m)

end RegionLookupLemmas

/-- The spec section 8 scenario geometry satisfies the Geometry Model
invariants; shared by the concrete witnesses below. -/
theorem g16_wf : GeometryWF g16 := by
  refine ⟨by decide, ?_, by decide, by decide, by decide, by decide, by decide,
    by decide, by decide, by decide⟩
  norm_num [g16, List.chain'_cons]

/-- C3: on a well-formed initialized geometry, for every address `a` below
the device size, `get_erase_size(a)` returns a size that evenly divides
into the region containing `a` and that is one of that region's supported
erase types, or the legacy default 4 KiB size when the region's supported
set is empty. -/
theorem c3_get_erase_size_at_spec (g : Geometry) (a : Nat)
    (hwf : GeometryWF g) (ha : a < g.device_size) :
    ∃ i s, _utils_find_addr_region g a = some i ∧
      get_erase_size_at g a = some s ∧
      s ∣ (g.regions.getD i dfltRegion).regionSize ∧
      ((∃ t ∈ supportedEraseTypes g (g.regions.getD i dfltRegion).eraseTypeMask,
          t.size = s) ∨
        (supportedEraseTypes g (g.regions.getD i dfltRegion).eraseTypeMask = [] ∧
          s = g.erase4k_size)) := by
  obtain ⟨i, hfind, hlen, _, _⟩ :=
    RegionLookupLemmas.find_addr_region_spec g hwf a ha
  cases hm : (supportedEraseTypes g
      (g.regions.getD i dfltRegion).eraseTypeMask).argmin EraseType.size with
  | some t =>
    have htmem : t ∈ supportedEraseTypes g
        (g.regions.getD i dfltRegion).eraseTypeMask :=
      List.argmin_mem (Option.mem_def.mpr hm)
    have hdvd := hwf.erase_divides i (List.mem_range.mpr hlen) t htmem
    refine ⟨i, t.size, hfind, ?_, hdvd.1, Or.inl ⟨t, htmem, rfl⟩⟩
    unfold get_erase_size_at
    simp only [hfind, hm]
  | none =>
    have hempty : supportedEraseTypes g
        (g.regions.getD i dfltRegion).eraseTypeMask = [] :=
      List.argmin_eq_none.mp hm
    refine ⟨i, g.erase4k_size, hfind, ?_,
      hwf.erase4k_divides i (List.mem_range.mpr hlen), Or.inr ⟨hempty, rfl⟩⟩
    unfold get_erase_size_at
    simp only [hfind, hm]

/-- Witness for C3 at address 0 of the 16 MiB scenario device. -/
theorem c3_get_erase_size_at_spec_witness :
    GeometryWF g16 ∧ 0 < g16.device_size ∧
    ∃ i s, _utils_find_addr_region g16 0 = some i ∧
      get_erase_size_at g16 0 = some s ∧
      s ∣ (g16.regions.getD i dfltRegion).regionSize ∧
      ((∃ t ∈ supportedEraseTypes g16 (g16.regions.getD i dfltRegion).eraseTypeMask,
          t.size = s) ∨
        (supportedEraseTypes g16 (g16.regions.getD i dfltRegion).eraseTypeMask = [] ∧
          s = g16.erase4k_size)) :=
  ⟨g16_wf, by decide, c3_get_erase_size_at_spec g16 0 g16_wf (by decide)⟩

/-- Any erase type supported in some region's mask is one of the valid
erase types (mask 15 selects every valid slot). -/
theorem mem_supported_all (g : Geometry) (mask : Nat) (t : EraseType)
    (h : t ∈ supportedEraseTypes g mask) : t ∈ supportedEraseTypes g 15 := by
  unfold supportedEraseTypes at h ⊢
  obtain ⟨p, hpf, rfl⟩ := List.mem_map.mp h
  obtain ⟨hpv, _⟩ := List.mem_filter.mp hpf
  refine List.mem_map.mpr ⟨p, List.mem_filter.mpr ⟨hpv, ?_⟩, rfl⟩
  have hp4 : p.1 < 4 := by
    unfold validEraseTypes at hpv
    obtain ⟨i, hir, hmap⟩ := List.mem_filterMap.mp hpv
    obtain ⟨t2, _, hpt⟩ := Option.map_eq_some'.mp hmap
    have hi : i < 4 := by
      simpa [MAX_NUM_OF_ERASE_TYPES] using List.mem_range.mp hir
    rw [← hpt]
    exact hi
  have hcases : p.1 = 0 ∨ p.1 = 1 ∨ p.1 = 2 ∨ p.1 = 3 := by omega
  rcases hcases with h0 | h0 | h0 | h0 <;> rw [h0] <;> decide

/-- C6: on a well-formed geometry, an erase whose start address is not
aligned to the smallest erase type available in its region fails
deterministically — the command builder reports the geometry error
(`none`) for every positive requested size, emitting no command, never
silently rounding the address or size. -/
theorem c6_misaligned_erase_fails (g : Geometry) (a n i : Nat)
    (tmin : EraseType) (hwf : GeometryWF g) (hn : 0 < n)
    (hfind : _utils_find_addr_region g a = some i)
    (hmin : (supportedEraseTypes g
        (g.regions.getD i dfltRegion).eraseTypeMask).argmin EraseType.size =
      some tmin)
    (hmis : a % tmin.size ≠ 0) :
    erase_commands g a n = none := by
  obtain ⟨m, rfl⟩ : ∃ m, n = m + 1 := ⟨n - 1, by omega⟩
  have hfitsnil : (supportedEraseTypes g
      (g.regions.getD i dfltRegion).eraseTypeMask).filter
        (fun t => decide (eraseFits a (m + 1)
          (g.regions.getD i dfltRegion).highBoundary t)) = [] := by
    rw [List.eq_nil_iff_forall_not_mem]
    intro t htmem
    obtain ⟨htsup, htfits⟩ := SelectorLemmas.mem_fits_filter.mp htmem
    have h15t := mem_supported_all g _ t htsup
    have h15min := mem_supported_all g _ tmin
      (List.argmin_mem (Option.mem_def.mpr hmin))
    have hle : tmin.size ≤ t.size :=
      List.le_of_mem_argmin htsup (Option.mem_def.mpr hmin)
    have hdvd : tmin.size ∣ t.size :=
      hwf.sizes_dvd_ordered t h15t tmin h15min hle
    have hta : t.size ∣ a := Nat.dvd_of_mod_eq_zero htfits.1
    exact hmis (Nat.mod_eq_zero_of_dvd (dvd_trans hdvd hta))
  have hsel : _utils_iterate_next_largest_erase_type g
      (g.regions.getD i dfltRegion).eraseTypeMask a (m + 1)
      (g.regions.getD i dfltRegion).highBoundary = none := by
    unfold _utils_iterate_next_largest_erase_type
    rw [hmin, hfitsnil]
    simp [hmis]
  show eraseLoopAux g (m + 1) a (m + 1) = none
  simp only [eraseLoopAux, hfind, hsel]

/-- Witness for C6: erasing from address 1 (misaligned even to the 4 KiB
minimum of region 0) on the 16 MiB scenario device fails with the geometry
error. -/
theorem c6_misaligned_erase_fails_witness :
    GeometryWF g16 ∧
    _utils_find_addr_region g16 1 = some 0 ∧
    (supportedEraseTypes g16
        (g16.regions.getD 0 dfltRegion).eraseTypeMask).argmin EraseType.size =
      some { opcode := 0x20, size := 4096 } ∧
    (1 : Nat) % 4096 ≠ 0 ∧
    erase_commands g16 1 4096 = none :=
  ⟨g16_wf, by decide, by decide, by decide,
   c6_misaligned_erase_fails g16 1 4096 0 { opcode := 0x20, size := 4096 }
     g16_wf (by decide) (by decide) (by decide) (by decide)⟩

namespace EraseSplitLemmas

theorem cmdsSize_cons (c : EraseCommand) (l : List EraseCommand) :
    cmdsSize (c :: l) = c.size + cmdsSize l := by
  simp [cmdsSize]

theorem cmdsSize_append (l1 l2 : List EraseCommand) :
    cmdsSize (l1 ++ l2) = cmdsSize l1 + cmdsSize l2 := by
  simp [cmdsSize]

theorem eraseLoopAux_zero (g : Geometry) (fuel a : Nat) :
    eraseLoopAux g fuel a 0 = some [] := by
  cases fuel <;> rfl

theorem eraseLoopAux_succ (g : Geometry) (fuel offset rem : Nat) :
    eraseLoopAux g (fuel + 1) offset (rem + 1) =
      match _utils_find_addr_region g offset with
      | none => none
      | some ridx =>
        match _utils_iterate_next_largest_erase_type g
            (g.regions.getD ridx dfltRegion).eraseTypeMask offset (rem + 1)
            (g.regions.getD ridx dfltRegion).highBoundary with
        | none => none
        | some t =>
          if t.size = 0 then none
          else
            match eraseLoopAux g fuel (offset + t.size) (rem + 1 - t.size) with
            | none => none
            | some cmds =>
              some ({ opcode := t.opcode, address := offset, size := t.size } :: cmds) :=
  rfl

theorem eraseLoopAux_fuel (g : Geometry) :
    ∀ fuel a n, n ≤ fuel → eraseLoopAux g fuel a n = eraseLoopAux g n a n := by
  intro fuel
  induction fuel using Nat.strong_induction_on with
  | _ fuel ih =>
    intro a n hn
    cases n with
    | zero => rw [eraseLoopAux_zero, eraseLoopAux_zero]
    | succ m =>
      cases fuel with
      | zero => omega
      | succ f =>
        rw [eraseLoopAux_succ, eraseLoopAux_succ]
        cases hfind : _utils_find_addr_region g a with
        | none => rfl
        | some i =>
          simp only [hfind]
          cases hsel : _utils_iterate_next_largest_erase_type g
              (g.regions.getD i dfltRegion).eraseTypeMask a (m + 1)
              (g.regions.getD i dfltRegion).highBoundary with
          | none => rfl
          | some t =>
            simp only [hsel]
            by_cases ht0 : t.size = 0
            · rw [if_pos ht0, if_pos ht0]
            · rw [if_neg ht0, if_neg ht0]
              have h1 : eraseLoopAux g f (a + t.size) (m + 1 - t.size) =
                  eraseLoopAux g (m + 1 - t.size) (a + t.size) (m + 1 - t.size) :=
                ih f (Nat.lt_succ_self f) _ _ (by omega)
              have h2 : eraseLoopAux g m (a + t.size) (m + 1 - t.size) =
                  eraseLoopAux g (m + 1 - t.size) (a + t.size) (m + 1 - t.size) :=
                ih m (by omega) _ _ (by omega)
              rw [h1, h2]

end EraseSplitLemmas

namespace EraseSplitLemmas

theorem supported_sublist_all (g : Geometry) (mask : Nat) :
    List.Sublist (supportedEraseTypes g mask) (supportedEraseTypes g 15) := by
  unfold supportedEraseTypes
  have h15 : (validEraseTypes g).filter (fun p => Nat.testBit 15 p.1) =
      validEraseTypes g := by
    rw [List.filter_eq_self]
    intro p hp
    have hp4 : p.1 < 4 := by
      unfold validEraseTypes at hp
      obtain ⟨i, hir, hmap⟩ := List.mem_filterMap.mp hp
      obtain ⟨t2, _, hpt⟩ := Option.map_eq_some'.mp hmap
      have hi : i < 4 := by
        simpa [MAX_NUM_OF_ERASE_TYPES] using List.mem_range.mp hir
      rw [← hpt]
      exact hi
    have hcases : p.1 = 0 ∨ p.1 = 1 ∨ p.1 = 2 ∨ p.1 = 3 := by omega
    rcases hcases with h0 | h0 | h0 | h0 <;> rw [h0] <;> decide
  rw [h15]
  exact (List.filter_sublist _).map Prod.snd

theorem supported_sizes_distinct (g : Geometry) (hwf : GeometryWF g)
    (mask : Nat) :
    (supportedEraseTypes g mask).Pairwise
      (fun a b => EraseType.size a ≠ EraseType.size b) :=
  hwf.sizes_distinct.sublist (supported_sublist_all g mask)

theorem selector_stable (g : Geometry) (hwf : GeometryWF g)
    (mask off bnd k n : Nat) (t : EraseType)
    (hts : t.size ≤ k) (hkn : k ≤ n)
    (hsel : _utils_iterate_next_largest_erase_type g mask off n bnd = some t) :
    _utils_iterate_next_largest_erase_type g mask off k bnd = some t := by
  have hsubk : ∀ u, u ∈ (supportedEraseTypes g mask).filter
        (fun v => decide (eraseFits off k bnd v)) →
      u ∈ (supportedEraseTypes g mask).filter
        (fun v => decide (eraseFits off n bnd v)) := by
    intro u hu
    obtain ⟨hus, huf⟩ := SelectorLemmas.mem_fits_filter.mp hu
    exact SelectorLemmas.mem_fits_filter.mpr
      ⟨hus, ⟨huf.1, Nat.le_trans huf.2.1 hkn, huf.2.2⟩⟩
  unfold _utils_iterate_next_largest_erase_type at hsel ⊢
  cases hm : ((supportedEraseTypes g mask).filter
      (fun v => decide (eraseFits off n bnd v))).argmax EraseType.size with
  | none =>
    rw [hm] at hsel
    have hknil : (supportedEraseTypes g mask).filter
        (fun v => decide (eraseFits off k bnd v)) = [] := by
      rw [List.eq_nil_iff_forall_not_mem]
      intro u hu
      have := hsubk u hu
      rw [List.argmax_eq_none.mp hm] at this
      exact List.not_mem_nil u this
    rw [hknil]
    simp only [List.argmax_nil]
    exact hsel
  | some u =>
    rw [hm] at hsel
    have htu : t = u := by
      simpa using hsel.symm
    subst htu
    have htmemn : t ∈ (supportedEraseTypes g mask).filter
        (fun v => decide (eraseFits off n bnd v)) :=
      List.argmax_mem (Option.mem_def.mpr hm)
    obtain ⟨hts2, htf⟩ := SelectorLemmas.mem_fits_filter.mp htmemn
    have htmemk : t ∈ (supportedEraseTypes g mask).filter
        (fun v => decide (eraseFits off k bnd v)) :=
      SelectorLemmas.mem_fits_filter.mpr ⟨hts2, ⟨htf.1, hts, htf.2.2⟩⟩
    have hpk : ((supportedEraseTypes g mask).filter
        (fun v => decide (eraseFits off k bnd v))).Pairwise
          (fun a b => EraseType.size a ≠ EraseType.size b) :=
      (supported_sizes_distinct g hwf mask).sublist (List.filter_sublist _)
    have hargk : ((supportedEraseTypes g mask).filter
        (fun v => decide (eraseFits off k bnd v))).argmax EraseType.size =
          some t := by
      rw [List.argmax_eq_some_iff]
      refine ⟨htmemk, ?_, ?_⟩
      · intro u hu
        exact List.le_of_mem_argmax (hsubk u hu) (Option.mem_def.mpr hm)
      · intro u hu hle
        have hge := List.le_of_mem_argmax (hsubk u hu) (Option.mem_def.mpr hm)
        have heq : EraseType.size u = EraseType.size t := Nat.le_antisymm hge hle
        by_cases hut : u = t
        · subst hut
          exact Nat.le_refl _
        · exact absurd heq
            (hpk.forall (fun x y hxy => fun hyx => hxy hyx.symm) hu htmemk hut)
    rw [hargk]

end EraseSplitLemmas

/-- C4 (amended): erase command sequences compose exactly at command
boundaries.  On a well-formed geometry, if the single `erase()` call for
`[a, a+n)` produces a sequence that tiles the range exactly and that
sequence is split as `L1 ++ L2`, then issuing the two adjacent sub-range
calls that meet at the boundary after `L1` produces exactly `L1` and `L2`
— so tiling the range by adjacent sub-range calls that split only at
command boundaries of the single-call sequence yields the identical
command sequence.  (Splitting at other aligned offsets can change the
sequence; see the counterexample.) -/
theorem c4_erase_split_at_command_boundary (g : Geometry) (hwf : GeometryWF g) :
    ∀ (L1 L2 : List EraseCommand) (a n : Nat),
      erase_commands g a n = some (L1 ++ L2) →
      cmdsSize (L1 ++ L2) = n →
      erase_commands g a (cmdsSize L1) = some L1 ∧
      erase_commands g (a + cmdsSize L1) (n - cmdsSize L1) = some L2 := by
  intro L1
  induction L1 with
  | nil =>
    intro L2 a n h _
    constructor
    · rfl
    · simpa [cmdsSize] using h
  | cons c L1' ih =>
    intro L2 a n h htile
    cases n with
    | zero =>
      rw [show erase_commands g a 0 = some [] from rfl] at h
      exact absurd (Option.some.inj h)
        (fun hcon => List.cons_ne_nil c (L1' ++ L2) hcon.symm)
    | succ m =>
      rw [show erase_commands g a (m + 1) = eraseLoopAux g (m + 1) a (m + 1)
          from rfl, EraseSplitLemmas.eraseLoopAux_succ] at h
      cases hfind : _utils_find_addr_region g a with
      | none =>
        rw [hfind] at h
        exact absurd h (by simp)
      | some i =>
        simp only [hfind] at h
        cases hsel : _utils_iterate_next_largest_erase_type g
            (g.regions.getD i dfltRegion).eraseTypeMask a (m + 1)
            (g.regions.getD i dfltRegion).highBoundary with
        | none =>
          simp only [hsel] at h
          exact absurd h (by simp)
        | some t =>
          simp only [hsel] at h
          by_cases ht0 : t.size = 0
          · rw [if_pos ht0] at h
            exact absurd h (by simp)
          · rw [if_neg ht0] at h
            cases hrec : eraseLoopAux g m (a + t.size) (m + 1 - t.size) with
            | none =>
              simp only [hrec] at h
              exact absurd h (by simp)
            | some cmds =>
              simp only [hrec] at h
              obtain ⟨hc, hcmds⟩ := List.cons.inj (Option.some.inj h)
              have hcsize : c.size = t.size := by rw [← hc]
              have htpos : 0 < t.size := Nat.pos_of_ne_zero ht0
              have htile2 : t.size + cmdsSize (L1' ++ L2) = m + 1 := by
                have : cmdsSize ((c :: L1') ++ L2) = m + 1 := htile
                rw [List.cons_append, EraseSplitLemmas.cmdsSize_cons, hcsize]
                  at this
                exact this
              have hrec2 : erase_commands g (a + t.size) (m + 1 - t.size) =
                  some (L1' ++ L2) := by
                rw [show erase_commands g (a + t.size) (m + 1 - t.size) =
                    eraseLoopAux g (m + 1 - t.size) (a + t.size)
                      (m + 1 - t.size) from rfl,
                  ← EraseSplitLemmas.eraseLoopAux_fuel g m _ _ (by omega),
                  hrec]
                exact congrArg some hcmds
              have htile3 : cmdsSize (L1' ++ L2) = m + 1 - t.size := by omega
              obtain ⟨ih1, ih2⟩ := ih L2 (a + t.size) (m + 1 - t.size)
                hrec2 htile3
              have hk : cmdsSize (c :: L1') = t.size + cmdsSize L1' := by
                rw [EraseSplitLemmas.cmdsSize_cons, hcsize]
              have hkle : cmdsSize (c :: L1') ≤ m + 1 := by
                have := EraseSplitLemmas.cmdsSize_append (c :: L1') L2
                omega
              constructor
              · obtain ⟨k0, hk0⟩ : ∃ k0, cmdsSize (c :: L1') = k0 + 1 :=
                  ⟨cmdsSize (c :: L1') - 1, by omega⟩
                rw [show erase_commands g a (cmdsSize (c :: L1')) =
                    eraseLoopAux g (cmdsSize (c :: L1')) a (cmdsSize (c :: L1'))
                    from rfl, hk0, EraseSplitLemmas.eraseLoopAux_succ]
                have hselk : _utils_iterate_next_largest_erase_type g
                    (g.regions.getD i dfltRegion).eraseTypeMask a (k0 + 1)
                    (g.regions.getD i dfltRegion).highBoundary = some t :=
                  EraseSplitLemmas.selector_stable g hwf
                    (g.regions.getD i dfltRegion).eraseTypeMask a
                    (g.regions.getD i dfltRegion).highBoundary (k0 + 1) (m + 1)
                    t (by omega) (by omega) hsel
                simp only [hfind, hselk]
                rw [if_neg ht0]
                have hinner : eraseLoopAux g k0 (a + t.size) (k0 + 1 - t.size) =
                    some L1' := by
                  have he : k0 + 1 - t.size = cmdsSize L1' := by omega
                  rw [he, EraseSplitLemmas.eraseLoopAux_fuel g k0 _ _ (by omega)]
                  exact ih1
                simp only [hinner]
                rw [hc]
              · have e1 : a + cmdsSize (c :: L1') = a + t.size + cmdsSize L1' := by
                  omega
                have e2 : m + 1 - cmdsSize (c :: L1') =
                    m + 1 - t.size - cmdsSize L1' := by omega
                rw [e1, e2]
                exact ih2

/-- Counterexample to C4 as stated: on the 16 MiB scenario device,
`get_erase_size(0) = 4 KiB` and `n = 128 KiB` is a multiple of it; the
adjacent sub-ranges `[0, 4K)` and `[4K, 128K)` tile `[0, 128K)` and each
sub-range call is itself valid (its size is a multiple of the erase size
at its address), yet the concatenation of the two sub-range command
sequences (one 4 KiB command followed by fifteen 4 KiB commands and one
64 KiB command) differs from the single-call sequence (two 64 KiB
commands). -/
theorem c4_counterexample :
    get_erase_size_at g16 0 = some 4096 ∧
    (131072 : Nat) % 4096 = 0 ∧
    get_erase_size_at g16 4096 = some 4096 ∧
    (4096 : Nat) % 4096 = 0 ∧
    (126976 : Nat) % 4096 = 0 ∧
    4096 + 126976 = 131072 ∧
    (erase_commands g16 0 4096).isSome = true ∧
    (erase_commands g16 4096 126976).isSome = true ∧
    (erase_commands g16 0 131072).isSome = true ∧
    (erase_commands g16 0 4096).getD [] ++ (erase_commands g16 4096 126976).getD []
      ≠ (erase_commands g16 0 131072).getD [] := by
  decide

/-- Witness for the amended C4 at the command boundary 64 KiB of the
single-call sequence for `[0, 128K)` on the 16 MiB scenario device. -/
theorem c4_erase_split_at_command_boundary_witness :
    GeometryWF g16 ∧
    erase_commands g16 0 131072 =
      some ([{ opcode := 0xD8, address := 0, size := 65536 }] ++
        [{ opcode := 0xD8, address := 65536, size := 65536 }]) ∧
    cmdsSize ([{ opcode := 0xD8, address := 0, size := 65536 }] ++
      [{ opcode := 0xD8, address := 65536, size := 65536 }]) = 131072 ∧
    (erase_commands g16 0
        (cmdsSize [{ opcode := 0xD8, address := 0, size := 65536 }]) =
      some [{ opcode := 0xD8, address := 0, size := 65536 }] ∧
    erase_commands g16
        (0 + cmdsSize [{ opcode := 0xD8, address := 0, size := 65536 }])
        (131072 - cmdsSize [{ opcode := 0xD8, address := 0, size := 65536 }]) =
      some [{ opcode := 0xD8, address := 65536, size := 65536 }]) :=
  ⟨g16_wf, by decide, by decide,
   c4_erase_split_at_command_boundary g16 g16_wf
     [{ opcode := 0xD8, address := 0, size := 65536 }]
     [{ opcode := 0xD8, address := 65536, size := 65536 }] 0 131072
     (by decide) (by decide)⟩

namespace InitLemmas

theorem headers_error (h : SfdpHeaderInfo) (e : qspif_bd_error)
    (hp : _sfdp_parse_sfdp_headers h = .error e) : e = .parsing_failed := by
  unfold _sfdp_parse_sfdp_headers at hp
  split_ifs at hp
  · exact (Except.error.inj hp).symm
  · exact (Except.error.inj hp).symm
  · exact (Except.error.inj hp).symm

theorem buildGeometry_error (bt : BasicTable)
    (smt : Option (List SectorMapDescriptor)) (e : qspif_bd_error)
    (h : buildGeometry bt smt = .error e) : e = .parsing_failed := by
  unfold buildGeometry at h
  cases smt with
  | none =>
    split_ifs at h
    · exact (Except.error.inj h).symm
  | some descs =>
    cases hsm : sfdp_parse_sector_map_table descs bt.device_size with
    | none =>
      simp only [hsm] at h
      exact (Except.error.inj h).symm
    | some rs =>
      simp only [hsm] at h
      exact absurd h (by simp)

theorem detect_quad_flag (c : BusCaps) :
    needsQuadEnable (_sfdp_detect_best_bus_read_mode c).1 = true →
      (_sfdp_detect_best_bus_read_mode c).2 = true := by
  revert c
  decide

end InitLemmas

/-- C5: for every capability bit pattern, the bus-read-mode selector picks
exactly the single highest-preference supported mode under the fixed total
order QPI(4-4-4) > Quad(1-4-4) > Quad(1-1-4) > Dual(1-2-2) > Dual(1-1-2) >
Single(1-1-1) (the picked mode is supported and no supported mode has a
strictly better rank), it schedules the quad-enable flag whenever a quad
or QPI mode is picked, and every successful `init()` that picked a
quad/QPI mode has the quad-enable step among its applied bus actions. -/
theorem c5_best_bus_read_mode_spec :
    (∀ c : BusCaps,
      modeSupported c (_sfdp_detect_best_bus_read_mode c).1 = true ∧
      (∀ m : BusReadMode, modeSupported c m = true →
        modeRank (_sfdp_detect_best_bus_read_mode c).1 ≤ modeRank m) ∧
      (needsQuadEnable (_sfdp_detect_best_bus_read_mode c).1 = true →
        (_sfdp_detect_best_bus_read_mode c).2 = true)) ∧
    (∀ (dev : SfdpDevice) (og : Option Geometry) (acts : List BusAction)
      (bt : BasicTable), dev.basicTable = some bt →
      init dev = (.ok, og, acts) →
      needsQuadEnable (_sfdp_detect_best_bus_read_mode bt.caps).1 = true →
      BusAction.quad_enable ∈ acts) := by
  constructor
  · decide
  · intro dev og acts bt hbt hinit hq
    unfold init at hinit
    cases hp : _sfdp_parse_sfdp_headers dev.header with
    | error e =>
      simp only [hp] at hinit
      have he := InitLemmas.headers_error dev.header e hp
      subst he
      injection hinit with h1 h2
      exact absurd h1 (by decide)
    | ok u =>
      simp only [hp] at hinit
      rw [hbt] at hinit
      cases hbg : buildGeometry bt dev.sectorMapDescs with
      | error e =>
        simp only [hbg] at hinit
        have he := InitLemmas.buildGeometry_error bt dev.sectorMapDescs e hbg
        subst he
        injection hinit with h1 h2
        exact absurd h1 (by decide)
      | ok g2 =>
        simp only [hbg] at hinit
        by_cases hcond : ((_sfdp_detect_best_bus_read_mode bt.caps).2 &&
            !bt.quadEnableMechanismKnown) = true
        · rw [if_pos hcond] at hinit
          injection hinit with h1 h2
          exact absurd h1 (by decide)
        · rw [if_neg hcond] at hinit
          have hacts := congrArg (fun p => p.2.2) hinit
          simp only at hacts
          have hq2 := InitLemmas.detect_quad_flag bt.caps hq
          rw [← hacts, hq2]
          simp

/-- Witness for C5 at a concrete capability pattern (1-4-4 and 1-1-4
supported): the selector picks Quad(1-4-4) over the supported Quad(1-1-4),
schedules quad enable, and a successful `init()` on a device with those
capabilities applies the quad-enable bus action. -/
theorem c5_best_bus_read_mode_spec_witness :
    (modeRank (_sfdp_detect_best_bus_read_mode
        { sup_444 := false, sup_144 := true, sup_114 := true,
          sup_122 := false, sup_112 := false }).1 ≤ modeRank .quad114) ∧
    BusAction.quad_enable ∈ (init devQuad).2.2 := by
  have h := c5_best_bus_read_mode_spec
  constructor
  · exact (h.1 { sup_444 := false, sup_144 := true, sup_114 := true,
                 sup_122 := false, sup_112 := false }).2.1 .quad114 (by decide)
  · exact h.2 devQuad (init devQuad).2.1 (init devQuad).2.2
      { device_size := 16777216,
        page_size := 256,
        erase_types := [some { opcode := 0x20, size := 4096 }, none, none, none],
        erase4k_size := 4096,
        caps := { sup_444 := false, sup_144 := true, sup_114 := true,
                  sup_122 := false, sup_112 := false },
        quadEnableMechanismKnown := true }
      rfl (by decide) (by decide)

/-- C7: for every SFDP header whose magic signature does not match,
`init()` returns `ParsingFailed`, builds no geometry, and applies no bus
action at all — in particular no bus-format and no bus-frequency
change. -/
theorem c7_bad_magic_aborts_init (dev : SfdpDevice)
    (h : dev.header.magic ≠ SFDP_SIGNATURE) :
    init dev = (.parsing_failed, none, []) ∧
    (∀ m, BusAction.configure_format m ∉ (init dev).2.2) ∧
    BusAction.set_frequency ∉ (init dev).2.2 := by
  have hp : _sfdp_parse_sfdp_headers dev.header = .error .parsing_failed := by
    unfold _sfdp_parse_sfdp_headers
    rw [if_pos h]
  have hmain : init dev = (.parsing_failed, none, []) := by
    unfold init
    simp only [hp]
  refine ⟨hmain, ?_, ?_⟩ <;> simp [hmain]

/-- Witness for C7 at a device whose first signature byte is corrupted. -/
theorem c7_bad_magic_aborts_init_witness :
    devBadMagic.header.magic ≠ SFDP_SIGNATURE ∧
    init devBadMagic = (.parsing_failed, none, []) :=
  ⟨by decide, (c7_bad_magic_aborts_init devBadMagic (by decide)).1⟩

/-- C8: every operation attempted on a not-initialized device fails fast
with the dedicated not-ready condition and performs no bus transaction;
the geometry accessors report nothing. -/
theorem c8_not_ready_fails_fast (st : DeviceState)
    (h : st.is_initialized = false) :
    (∀ addr bytes, read st addr bytes = (.not_ready, [])) ∧
    (∀ wel busy addr bytes,
      program st wel busy addr bytes = (.not_ready, [])) ∧
    (∀ addr bytes, erase st addr bytes = (.not_ready, [])) ∧
    get_read_size st = none ∧
    get_program_size st = none ∧
    get_erase_size st = none ∧
    (∀ addr, get_erase_size_addr st addr = none) ∧
    size st = none := by
  refine ⟨?_, ?_, ?_, ?_, ?_, ?_, ?_, ?_⟩ <;>
    simp [QSPIFBlockDevice.read, QSPIFBlockDevice.program,
      QSPIFBlockDevice.erase, QSPIFBlockDevice.get_read_size,
      QSPIFBlockDevice.get_program_size, QSPIFBlockDevice.get_erase_size,
      QSPIFBlockDevice.get_erase_size_addr, QSPIFBlockDevice.size, h]

/-- Witness for C8 on a concrete not-initialized device state. -/
theorem c8_not_ready_fails_fast_witness :
    ({ is_initialized := false, geometry := g16 } : DeviceState).is_initialized
      = false ∧
    read { is_initialized := false, geometry := g16 } 0 16 = (.not_ready, []) ∧
    erase { is_initialized := false, geometry := g16 } 0 4096 =
      (.not_ready, []) ∧
    get_erase_size { is_initialized := false, geometry := g16 } = none := by
  have h := c8_not_ready_fails_fast
    { is_initialized := false, geometry := g16 } rfl
  exact ⟨rfl, h.1 0 16, h.2.2.1 0 4096, h.2.2.2.2.2.1⟩

/-- C9: whenever the write-enable poll never observes the
write-enable-latch bit within its bounded retry budget, `program()`
returns `WriteEnableFailed` and no program transfer is issued to the
device. -/
theorem c9_wren_failed_no_program (st : DeviceState) (wel busy : List Bool)
    (addr bytes : Nat) (hinit : st.is_initialized = true)
    (hwel : ∀ b ∈ wel.take WREN_RETRY_BUDGET, b = false) :
    (program st wel busy addr bytes).1 = .wren_failed ∧
    ∀ x y, BusAction.program_transfer x y ∉ (program st wel busy addr bytes).2 := by
  have hany : (wel.take WREN_RETRY_BUDGET).any (fun b => b) = false := by
    rw [List.any_eq_false]
    intro b hb
    simp [hwel b hb]
  unfold program _set_write_enable
  rw [hinit]
  simp only [Bool.not_true, Bool.false_eq_true, if_false, hany,
    Bool.not_false, if_true]
  constructor
  · trivial
  · intro x y hmem
    simp only [List.mem_cons, List.mem_map] at hmem
    rcases hmem with hmem | ⟨b, _, hmem⟩ <;> exact BusAction.noConfusion hmem

/-- Witness for C9: an initialized device whose status reads never show
the WEL bit. -/
theorem c9_wren_failed_no_program_witness :
    ({ is_initialized := true, geometry := g16 } : DeviceState).is_initialized
      = true ∧
    (program { is_initialized := true, geometry := g16 }
      [false, false, false, false, false] [false] 0 256).1 = .wren_failed := by
  have h := c9_wren_failed_no_program
    { is_initialized := true, geometry := g16 }
    [false, false, false, false, false] [false] 0 256 rfl (by decide)
  exact ⟨rfl, h.1⟩

/-- C10: destroying the object always invokes `deinit()` (the destructor
body in src/QSPIFBlockDevice.h is `{deinit();}`), so for every device
state — initialized or not, with no call to `deinit()` by the caller —
destruction leaves the Geometry Model not-ready. -/
theorem c10_destructor_deinits (st : DeviceState) :
    destruct st = deinit st ∧ (destruct st).is_initialized = false :=
  ⟨rfl, rfl⟩
